import Mathlib

/-!
Verification of the voice-stress analysis pipeline of
`src/components/AudioAnalyzer.tsx`.

The component's analysis core is embedded shallowly: JavaScript numbers are
modelled as real numbers, `Uint8Array` samples as `Fin 256`, and the React
state triple (`voiceHistory`, `pitchHistory`, `volumeHistory`) as an
explicit record threaded through each analysis tick.  React's `setState`
defers updates: a `setXHistory` call made during a tick only becomes
visible at the next render, so inside one call of
`performVoiceStressAnalysis` every read of a history refers to the values
captured when the tick began.  The embedding renders this by computing the
next state separately from the scores, which are all computed from the
pre-push histories.  The nondeterministic `id` and `timestamp` fields of
the output record (filled from `Date.now()` and `Math.random()`) are
omitted from the model.
-/

/-- The emotional-state labels of the `VoiceAnalysis` record
(`AudioAnalyzer.tsx`, line 12). -/
inductive EmotionalState where
  | calm
  | stressed
  | confident
  | uncertain
  | deceptive
  | anxious
  deriving DecidableEq

/-- The output record of one analysis tick (lines 4-14; the `id` and
`timestamp` fields are caller-supplied randomness and are omitted). -/
structure VoiceAnalysis where
  stressLevel : ℝ
  confidenceLevel : ℝ
  pitchVariation : ℝ
  speechRate : ℝ
  volumeConsistency : ℝ
  emotionalState : EmotionalState
  sessionId : String

/-- The mutable per-session state: the three rolling histories
(lines 36-38). -/
structure AnalyzerState where
  voiceHistory : List ℝ
  pitchHistory : List ℝ
  volumeHistory : List ℝ

/-- JavaScript `xs.slice(-n)`: the last `n` entries of a list (all of them
when the list is shorter than `n`). -/
def sliceLast (l : List ℝ) (n : ℕ) : List ℝ :=
  l.drop (l.length - n)

/-- The rolling-history update `prev => [...prev.slice(-19), value]` used
for all three histories (lines 135-137). -/
def pushHist (prev : List ℝ) (value : ℝ) : List ℝ :=
  sliceLast prev 19 ++ [value]

/-- The accumulation loop `for (i = 1; i < recent.length; i++)
sum += Math.abs(recent[i] - recent[i-1])` shared by `calculateJitter`
(lines 213-215) and `calculateShimmer` (lines 226-228). -/
noncomputable def sumAbsDiff : List ℝ → ℝ
  | a :: b :: t => |b - a| + sumAbsDiff (b :: t)
  | _ => 0

/-- The dB-to-linear-power conversion `Math.pow(10, db / 10)` used at
lines 188 and 199. -/
noncomputable def dbToPower (db : ℝ) : ℝ :=
  (10 : ℝ) ^ (db / 10)

/-- One step of the peak scan of `detectFundamentalFrequency`
(lines 173-178).  The accumulator holds `(maxIndex, maxValue)`;
`maxValue` starts as `-Infinity`, modelled by `none`, which any first
scanned sample beats. -/
noncomputable def ffStep (d : List ℝ) : ℕ × Option ℝ → ℕ → ℕ × Option ℝ
  | (_, none), i => (i, some (d.getD i 0))
  | (b, some m), i => if m < d.getD i 0 then (i, some (d.getD i 0)) else (b, some m)

/-- The index range scanned by `detectFundamentalFrequency`:
`for (i = floor(80*n/22050); i < floor(300*n/22050) && i < n; i++)`
(lines 170-173). -/
def ffSearchRange (n : ℕ) : List ℕ :=
  List.range' (80 * n / 22050) (min (300 * n / 22050) n - 80 * n / 22050)

/-- Lines 165-181: linear peak search over the nominal 80-300 Hz window,
returning `maxIndex * 22050 / frequencyData.length` (`maxIndex` stays `0`
when the scanned range is empty). -/
noncomputable def detectFundamentalFrequency (frequencyData : List ℝ) : ℝ :=
  ((((ffSearchRange frequencyData.length).foldl (ffStep frequencyData) (0, none)).1 : ℝ)
      * 22050) / (frequencyData.length : ℝ)

/-- Lines 183-192: linear power of the top 40% of bins
(`highFreqStart = Math.floor(length * 0.6)`, modelled by the exact
`6 * length / 10`), averaged over that range and capped at 1. -/
noncomputable def calculateHighFrequencyEnergy (frequencyData : List ℝ) : ℝ :=
  min ((((frequencyData.drop (6 * frequencyData.length / 10)).map dbToPower).sum)
      / ((frequencyData.length - 6 * frequencyData.length / 10 : ℕ) : ℝ)) 1

/-- Lines 194-205: power-weighted mean bin index over the whole spectrum,
`0` when the total power is not positive.  The result stays on the raw
bin-index scale; it is not frequency- or length-normalised. -/
noncomputable def calculateSpectralCentroid (frequencyData : List ℝ) : ℝ :=
  let weightedSum := ((List.range frequencyData.length).map
    (fun (i : ℕ) => (i : ℝ) * dbToPower (frequencyData.getD i 0))).sum
  let magnitudeSum := ((List.range frequencyData.length).map
    (fun i => dbToPower (frequencyData.getD i 0))).sum
  if 0 < magnitudeSum then weightedSum / magnitudeSum else 0

/-- Lines 207-218. -/
noncomputable def calculateJitter (pitchHistory : List ℝ) (currentPitch : ℝ) : ℝ :=
  if pitchHistory.length < 3 then 0
  else
    let recent := sliceLast pitchHistory 5 ++ [currentPitch]
    min (sumAbsDiff recent / ((recent.length - 1 : ℕ) : ℝ) / 100) 1

/-- Lines 220-231. -/
noncomputable def calculateShimmer (volumeHistory : List ℝ) (currentVolume : ℝ) : ℝ :=
  if volumeHistory.length < 3 then 0
  else
    let recent := sliceLast volumeHistory 5 ++ [currentVolume]
    min (sumAbsDiff recent / ((recent.length - 1 : ℕ) : ℝ) / 50) 1

/-- Lines 233-243. -/
noncomputable def calculateStressLevel
    (highFreqEnergy jitter shimmer spectralCentroid : ℝ) : ℝ :=
  min (max (highFreqEnergy * 0.3 + jitter * 0.25 + shimmer * 0.25
      + (if 0.6 < spectralCentroid then 0.2 else 0)) 0) 1

/-- Lines 245-251. -/
noncomputable def calculateConfidenceLevel (volume jitter shimmer : ℝ) : ℝ :=
  min (max ((if 20 < volume ∧ volume < 80 then (0.4 : ℝ) else 0.2)
      + ((1 - jitter) * 0.3 + (1 - shimmer) * 0.3)) 0) 1

/-- Lines 253-260. -/
noncomputable def calculatePitchVariation (pitchHistory : List ℝ) : ℝ :=
  if pitchHistory.length < 5 then 0
  else
    let mean := pitchHistory.sum / (pitchHistory.length : ℝ)
    let variance :=
      (pitchHistory.map (fun v => (v - mean) ^ 2)).sum / (pitchHistory.length : ℝ)
    min (Real.sqrt variance / 100) 1

/-- Lines 262-268. -/
noncomputable def calculateSpeechRate (voiceHistory : List ℝ) : ℝ :=
  if voiceHistory.length < 10 then 0.5
  else
    min (((voiceHistory.filter (fun vol => decide (10 < vol))).length : ℝ)
      / (voiceHistory.length : ℝ)) 1

/-- Lines 270-277. -/
noncomputable def calculateVolumeConsistency (volumeHistory : List ℝ) : ℝ :=
  if volumeHistory.length < 5 then 1
  else
    let mean := volumeHistory.sum / (volumeHistory.length : ℝ)
    let variance :=
      (volumeHistory.map (fun v => (v - mean) ^ 2)).sum / (volumeHistory.length : ℝ)
    max (1 - Real.sqrt variance / 50) 0

/-- Lines 279-286: the ordered threshold-rule chain. -/
noncomputable def determineEmotionalState
    (stress confidence pitchVar speechRate : ℝ) : EmotionalState :=
  if 0.7 < stress then .stressed
  else if 0.7 < confidence ∧ stress < 0.3 then .confident
  else if 0.6 < pitchVar ∧ speechRate < 0.4 then .uncertain
  else if 0.5 < stress ∧ 0.5 < pitchVar then .anxious
  else if 0.4 < stress ∧ confidence < 0.4 ∧ 0.4 < pitchVar then .deceptive
  else .calm

/-- Lines 124-163.  The `setVoiceHistory` / `setPitchHistory` /
`setVolumeHistory` updaters (lines 135-137) produce the next state, but
React defers them, so the score computations at lines 140-144 still read
the histories captured at the start of the tick. -/
noncomputable def performVoiceStressAnalysis (st : AnalyzerState) (sessionId : String)
    (timeData : List (Fin 256)) (frequencyData : List ℝ) (volume : ℝ) :
    AnalyzerState × VoiceAnalysis :=
  let fundamentalFreq := detectFundamentalFrequency frequencyData
  let highFreqEnergy := calculateHighFrequencyEnergy frequencyData
  let spectralCentroid := calculateSpectralCentroid frequencyData
  let jitter := calculateJitter st.pitchHistory fundamentalFreq
  let shimmer := calculateShimmer st.volumeHistory volume
  let nextState : AnalyzerState :=
    ⟨pushHist st.voiceHistory volume, pushHist st.pitchHistory fundamentalFreq,
      pushHist st.volumeHistory volume⟩
  let stressLevel := calculateStressLevel highFreqEnergy jitter shimmer spectralCentroid
  let confidenceLevel := calculateConfidenceLevel volume jitter shimmer
  let pitchVariation := calculatePitchVariation st.pitchHistory
  let speechRate := calculateSpeechRate st.voiceHistory
  let volumeConsistency := calculateVolumeConsistency st.volumeHistory
  let emotionalState :=
    determineEmotionalState stressLevel confidenceLevel pitchVariation speechRate
  (nextState,
    ⟨stressLevel, confidenceLevel, pitchVariation, speechRate, volumeConsistency,
      emotionalState, sessionId⟩)

/-- Lines 111-113: `audioLevel = Math.round(((sum of dataArray) /
bufferLength / 255) * 100)`. -/
noncomputable def audioLevelOf (dataArray : List (Fin 256)) : ℤ :=
  round (((dataArray.map (fun b => (b.val : ℝ))).sum / (dataArray.length : ℝ)) / 255 * 100)

/-- Lines 101-122 (`analyzeAudio`), one analysis tick: compute the audio
level and, only when it exceeds 5, run the voice-stress analysis;
otherwise the histories are left unchanged and no record is emitted. -/
noncomputable def analyzeAudio (st : AnalyzerState) (sessionId : String)
    (dataArray : List (Fin 256)) (frequencyData : List ℝ) :
    AnalyzerState × Option VoiceAnalysis :=
  if 5 < audioLevelOf dataArray then
    let r := performVoiceStressAnalysis st sessionId dataArray frequencyData
      ((audioLevelOf dataArray : ℤ) : ℝ)
    (r.1, some r.2)
  else (st, none)

/-- States reachable from the initial empty histories by any sequence of
analysis ticks. -/
inductive Reachable : AnalyzerState → Prop where
  | init : Reachable ⟨[], [], []⟩
  | step (sid : String) (da : List (Fin 256)) (fd : List ℝ) {st : AnalyzerState} :
      Reachable st → Reachable (analyzeAudio st sid da fd).1

/-! Specification-side definitions, transcribed from the spec's wording so
that the source embeddings above can be compared against them. -/

/-- Clamping to the unit interval, as the spec phrases each score bound. -/
noncomputable def clamp01 (x : ℝ) : ℝ := max 0 (min x 1)

/-- Spec formulation of the consecutive absolute differences of a list of
samples. -/
noncomputable def absDiffs (l : List ℝ) : List ℝ :=
  l.zipWith (fun a b => |a - b|) l.tail

/-- Claim C5 formulation of jitter: last 5 history samples followed by the
current pitch, sum of absolute consecutive differences, divided by
`count - 1`, divided by 100, clamped to `[0, 1]`; `0` with fewer than 3
history samples. -/
noncomputable def jitterSpec (h : List ℝ) (v : ℝ) : ℝ :=
  if h.length < 3 then 0
  else
    clamp01 ((absDiffs (sliceLast h 5 ++ [v])).sum
      / (((sliceLast h 5 ++ [v]).length - 1 : ℕ) : ℝ) / 100)

/-- Claim C5 formulation of shimmer: as `jitterSpec` with divisor 50 over
volume samples. -/
noncomputable def shimmerSpec (h : List ℝ) (v : ℝ) : ℝ :=
  if h.length < 3 then 0
  else
    clamp01 ((absDiffs (sliceLast h 5 ++ [v])).sum
      / (((sliceLast h 5 ++ [v]).length - 1 : ℕ) : ℝ) / 50)

/-- Claim C8 formulation of the raw power-weighted mean bin index
(`Σ i·10^(db_i/10) / Σ 10^(db_i/10)`, `0` for zero total power). -/
noncomputable def spectralCentroidRaw (d : List ℝ) : ℝ :=
  if 0 < ∑ i ∈ Finset.range d.length, dbToPower (d.getD i 0) then
    (∑ i ∈ Finset.range d.length, (i : ℝ) * dbToPower (d.getD i 0))
      / ∑ i ∈ Finset.range d.length, dbToPower (d.getD i 0)
  else 0

/-- Claim C7 band membership: the mapped frequency
`freq(i) = i * 22050 / binCount` lies in `[80, 300]`, written in the
equivalent cross-multiplied form so that it evaluates over `ℕ`; the lemma
`voiceBand_iff` below proves it equal to the rational-arithmetic band
condition of the claim. -/
def voiceBand (n i : ℕ) : Bool :=
  decide (80 * n ≤ i * 22050 ∧ i * 22050 ≤ 300 * n)

/-- For a non-degenerate bin count, `voiceBand` holds exactly when the
mapped frequency `i * 22050 / n` lies in `[80, 300]`. -/
theorem voiceBand_iff (n i : ℕ) (hn : 0 < n) :
    voiceBand n i = true ↔
      ((80 : ℚ) ≤ (i : ℚ) * 22050 / (n : ℚ) ∧ (i : ℚ) * 22050 / (n : ℚ) ≤ 300) := by
  unfold voiceBand
  rw [decide_eq_true_eq]
  have hn' : (0 : ℚ) < (n : ℚ) := by exact_mod_cast hn
  constructor
  · rintro ⟨h1, h2⟩
    constructor
    · rw [le_div_iff hn']; exact_mod_cast h1
    · rw [div_le_iff hn']; exact_mod_cast h2
  · rintro ⟨h1, h2⟩
    rw [le_div_iff hn'] at h1
    rw [div_le_iff hn'] at h2
    exact ⟨by exact_mod_cast h1, by exact_mod_cast h2⟩

/-- Indices of exactly the bins whose mapped frequency falls in the
80-300 Hz band. -/
def bandIdxs (n : ℕ) : List ℕ :=
  (List.range n).filter (fun i => voiceBand n i)

/-- Claim C7 formulation of the fundamental-frequency search: the same
lowest-index-wins maximum scan, but taken over exactly the bins whose
mapped frequency lies in `[80, 300]` (result `0` when the band holds no
bin). -/
noncomputable def detectFundamentalFrequencySpec (d : List ℝ) : ℝ :=
  ((((bandIdxs d.length).foldl (ffStep d) (0, none)).1 : ℝ) * 22050) / (d.length : ℝ)

/-! Helper lemmas. -/

theorem sumAbsDiff_nonneg : ∀ l : List ℝ, 0 ≤ sumAbsDiff l
  | [] => le_refl 0
  | [_] => le_refl 0
  | a :: b :: t => by
    rw [show sumAbsDiff (a :: b :: t) = |b - a| + sumAbsDiff (b :: t) from rfl]
    have h1 := sumAbsDiff_nonneg (b :: t)
    have h2 : (0 : ℝ) ≤ |b - a| := abs_nonneg _
    linarith

theorem sumAbsDiff_eq_absDiffs : ∀ l : List ℝ, sumAbsDiff l = (absDiffs l).sum
  | [] => rfl
  | [a] => by simp [sumAbsDiff, absDiffs]
  | a :: b :: t => by
    rw [show sumAbsDiff (a :: b :: t) = |b - a| + sumAbsDiff (b :: t) from rfl,
      sumAbsDiff_eq_absDiffs (b :: t)]
    simp [absDiffs, List.zipWith]
    rw [abs_sub_comm]

theorem clamp01_of_nonneg {x : ℝ} (hx : 0 ≤ x) : clamp01 x = min x 1 := by
  unfold clamp01
  exact max_eq_right (le_min hx zero_le_one)

theorem min_max_clamp (x : ℝ) : min (max x 0) 1 = clamp01 x := by
  unfold clamp01
  rcases le_total x 0 with h | h
  · have h1 : max x 0 = 0 := max_eq_right h
    have h2 : min x 1 = x := min_eq_left (le_trans h zero_le_one)
    have h3 : max 0 x = 0 := max_eq_left h
    rw [h1, h2, h3]
    exact min_eq_left zero_le_one
  · have h1 : max x 0 = x := max_eq_left h
    have h2 : max 0 (min x 1) = min x 1 := max_eq_right (le_min h zero_le_one)
    rw [h1, h2]

theorem sum_map_range (f : ℕ → ℝ) (n : ℕ) :
    ((List.range n).map f).sum = ∑ i ∈ Finset.range n, f i := by
  induction n with
  | zero => simp
  | succ k ih => rw [List.range_succ, Finset.sum_range_succ]; simp [ih]

/-- The tuple produced by one run of `performVoiceStressAnalysis`, spelled
out. -/
theorem performVSA_eq (st : AnalyzerState) (sid : String) (td : List (Fin 256))
    (fd : List ℝ) (vol : ℝ) :
    performVoiceStressAnalysis st sid td fd vol =
      (⟨pushHist st.voiceHistory vol,
        pushHist st.pitchHistory (detectFundamentalFrequency fd),
        pushHist st.volumeHistory vol⟩,
       ⟨calculateStressLevel (calculateHighFrequencyEnergy fd)
          (calculateJitter st.pitchHistory (detectFundamentalFrequency fd))
          (calculateShimmer st.volumeHistory vol) (calculateSpectralCentroid fd),
        calculateConfidenceLevel vol
          (calculateJitter st.pitchHistory (detectFundamentalFrequency fd))
          (calculateShimmer st.volumeHistory vol),
        calculatePitchVariation st.pitchHistory,
        calculateSpeechRate st.voiceHistory,
        calculateVolumeConsistency st.volumeHistory,
        determineEmotionalState
          (calculateStressLevel (calculateHighFrequencyEnergy fd)
            (calculateJitter st.pitchHistory (detectFundamentalFrequency fd))
            (calculateShimmer st.volumeHistory vol) (calculateSpectralCentroid fd))
          (calculateConfidenceLevel vol
            (calculateJitter st.pitchHistory (detectFundamentalFrequency fd))
            (calculateShimmer st.volumeHistory vol))
          (calculatePitchVariation st.pitchHistory)
          (calculateSpeechRate st.voiceHistory),
        sid⟩) := rfl

/-- Invariant of the peak scan once a first sample has been taken: the fold
either keeps the accumulator (everything scanned is at most the running
maximum) or ends on the first strictly-greater sample of the scanned
indices. -/
theorem ffScan_first_max (d : List ℝ) :
    ∀ idxs : List ℕ, List.Pairwise (· < ·) idxs → ∀ (b : ℕ) (m : ℝ),
      (List.foldl (ffStep d) (b, some m) idxs = (b, some m) ∧
        ∀ j ∈ idxs, d.getD j 0 ≤ m) ∨
      (∃ i, i ∈ idxs ∧ List.foldl (ffStep d) (b, some m) idxs = (i, some (d.getD i 0)) ∧
        m < d.getD i 0 ∧ (∀ j ∈ idxs, d.getD j 0 ≤ d.getD i 0) ∧
        ∀ j ∈ idxs, j < i → d.getD j 0 < d.getD i 0) := by
  intro idxs
  induction idxs with
  | nil => intro _ b m; left; exact ⟨rfl, by simp⟩
  | cons a t ih =>
    intro hpw b m
    have hpt : List.Pairwise (· < ·) t := (List.pairwise_cons.mp hpw).2
    have hat : ∀ j ∈ t, a < j := (List.pairwise_cons.mp hpw).1
    rw [List.foldl_cons]
    by_cases hcmp : m < d.getD a 0
    · have hstep : ffStep d (b, some m) a = (a, some (d.getD a 0)) := by
        show (if m < d.getD a 0 then (a, some (d.getD a 0)) else (b, some m))
          = (a, some (d.getD a 0))
        rw [if_pos hcmp]
      rw [hstep]
      rcases ih hpt a (d.getD a 0) with ⟨heq, hle⟩ | ⟨i, hmem, heq, hlt, hmax, hfirst⟩
      · right
        refine ⟨a, List.mem_cons_self a t, heq, hcmp, ?_, ?_⟩
        · intro j hj
          rcases List.mem_cons.mp hj with rfl | hj
          · exact le_refl _
          · exact hle j hj
        · intro j hj hja
          rcases List.mem_cons.mp hj with rfl | hj
          · exact absurd hja (lt_irrefl _)
          · exact absurd hja (not_lt.mpr (hat j hj).le)
      · right
        refine ⟨i, List.mem_cons_of_mem a hmem, heq, lt_trans hcmp hlt, ?_, ?_⟩
        · intro j hj
          rcases List.mem_cons.mp hj with rfl | hj
          · exact hlt.le
          · exact hmax j hj
        · intro j hj hji
          rcases List.mem_cons.mp hj with rfl | hj
          · exact hlt
          · exact hfirst j hj hji
    · have hstep : ffStep d (b, some m) a = (b, some m) := by
        show (if m < d.getD a 0 then (a, some (d.getD a 0)) else (b, some m)) = (b, some m)
        rw [if_neg hcmp]
      rw [hstep]
      rcases ih hpt b m with ⟨heq, hle⟩ | ⟨i, hmem, heq, hlt, hmax, hfirst⟩
      · left
        refine ⟨heq, ?_⟩
        intro j hj
        rcases List.mem_cons.mp hj with rfl | hj
        · exact not_lt.mp hcmp
        · exact hle j hj
      · right
        refine ⟨i, List.mem_cons_of_mem a hmem, heq, hlt, ?_, ?_⟩
        · intro j hj
          rcases List.mem_cons.mp hj with rfl | hj
          · exact (not_lt.mp hcmp).trans hlt.le
          · exact hmax j hj
        · intro j hj _
          rcases List.mem_cons.mp hj with rfl | hj
          · exact (not_lt.mp hcmp).trans_lt hlt
          · exact hfirst j hj (by assumption)

/-- When the scanned index range is empty the detector returns 0. -/
theorem detectFF_of_empty_range (d : List ℝ) (h : ffSearchRange d.length = []) :
    detectFundamentalFrequency d = 0 := by
  unfold detectFundamentalFrequency
  rw [h, List.foldl_nil]
  norm_num

/-- Twenty-five `pushHist` steps from the empty history keep exactly the
last twenty values, in order; more generally the fold keeps the final
segment of the pushed sequence. -/
theorem foldl_pushHist (vs : List ℝ) :
    List.foldl pushHist [] vs = vs.drop (vs.length - 20) := by
  induction vs using List.reverseRecOn with
  | nil => rfl
  | append_singleton l a ih =>
    rw [List.foldl_append, List.foldl_cons, List.foldl_nil, ih]
    unfold pushHist sliceLast
    rw [List.length_drop, List.drop_drop, List.drop_append_eq_append_drop]
    have h0 : (l ++ [a]).length - 20 - l.length = 0 := by
      rw [List.length_append]
      simp only [List.length_singleton]
      omega
    rw [h0, List.drop_zero]
    have h1 : l.length - 20 + (l.length - (l.length - 20) - 19)
        = (l ++ [a]).length - 20 := by
      rw [List.length_append]
      simp only [List.length_singleton]
      omega
    rw [h1]

/-- The audio level computed at lines 112-113 never exceeds 100, because
`Uint8Array` samples are at most 255. -/
theorem audioLevelOf_le_100 (da : List (Fin 256)) : audioLevelOf da ≤ 100 := by
  unfold audioLevelOf
  have havg : (da.map (fun b => (b.val : ℝ))).sum / (da.length : ℝ) ≤ 255 := by
    rcases List.eq_nil_or_concat da with rfl | _
    · norm_num
    · rcases Nat.eq_zero_or_pos da.length with h0 | hpos
      · rw [List.length_eq_zero.mp h0]; norm_num
      · have hsum : (da.map (fun b => (b.val : ℝ))).sum
            ≤ ((da.map (fun b => (b.val : ℝ))).length : ℕ) • (255 : ℝ) := by
          apply List.sum_le_card_nsmul
          intro x hx
          rcases List.mem_map.mp hx with ⟨b, _, rfl⟩
          have hb : b.val ≤ 255 := Nat.lt_succ_iff.mp b.isLt
          exact_mod_cast hb
        rw [List.length_map, nsmul_eq_mul] at hsum
        rw [div_le_iff (by exact_mod_cast hpos : (0 : ℝ) < (da.length : ℝ))]
        calc (da.map (fun b => (b.val : ℝ))).sum ≤ (da.length : ℝ) * 255 := hsum
          _ = 255 * (da.length : ℝ) := by ring
  have hx : (da.map (fun b => (b.val : ℝ))).sum / (da.length : ℝ) / 255 * 100 ≤ 100 := by
    have h1 : (da.map (fun b => (b.val : ℝ))).sum / (da.length : ℝ) / 255 ≤ 1 := by
      rw [div_le_one (by norm_num : (0 : ℝ) < 255)]
      exact havg
    nlinarith
  rw [round_eq]
  have hfl := Int.floor_lt.mpr
    (show (da.map (fun b => (b.val : ℝ))).sum / (da.length : ℝ) / 255 * 100 + 1 / 2
        < ((101 : ℤ) : ℝ) by push_cast; linarith)
  omega

theorem calculateStressLevel_bounds (a b c d : ℝ) :
    0 ≤ calculateStressLevel a b c d ∧ calculateStressLevel a b c d ≤ 1 := by
  unfold calculateStressLevel
  exact ⟨le_min (le_max_right _ 0) zero_le_one, min_le_right _ 1⟩

theorem calculateConfidenceLevel_bounds (v j s : ℝ) :
    0 ≤ calculateConfidenceLevel v j s ∧ calculateConfidenceLevel v j s ≤ 1 := by
  unfold calculateConfidenceLevel
  exact ⟨le_min (le_max_right _ 0) zero_le_one, min_le_right _ 1⟩

theorem calculatePitchVariation_bounds (h : List ℝ) :
    0 ≤ calculatePitchVariation h ∧ calculatePitchVariation h ≤ 1 := by
  unfold calculatePitchVariation
  split_ifs
  · norm_num
  · refine ⟨le_min (div_nonneg (Real.sqrt_nonneg _) (by norm_num)) zero_le_one,
      min_le_right _ 1⟩

theorem calculateSpeechRate_bounds (h : List ℝ) :
    0 ≤ calculateSpeechRate h ∧ calculateSpeechRate h ≤ 1 := by
  unfold calculateSpeechRate
  split_ifs
  · norm_num
  · exact ⟨le_min (div_nonneg (Nat.cast_nonneg _) (Nat.cast_nonneg _)) zero_le_one,
      min_le_right _ 1⟩

theorem calculateVolumeConsistency_bounds (h : List ℝ) :
    0 ≤ calculateVolumeConsistency h ∧ calculateVolumeConsistency h ≤ 1 := by
  unfold calculateVolumeConsistency
  split_ifs
  · norm_num
  · constructor
    · exact le_max_right _ 0
    · exact max_le (sub_le_self 1 (by positivity)) zero_le_one

/-- Audio level of a flat all-zero frame of four samples. -/
theorem audioLevelOf_zeros : audioLevelOf [0, 0, 0, 0] = 0 := by
  unfold audioLevelOf
  rw [show (([0, 0, 0, 0] : List (Fin 256)).map (fun b => (b.val : ℝ)))
      = [0, 0, 0, 0] by norm_num [show ((0 : Fin 256)).val = 0 from rfl]]
  norm_num

/-- Audio level of the one-sample frame holding the maximal byte. -/
theorem audioLevelOf_255 : audioLevelOf [(255 : Fin 256)] = 100 := by
  unfold audioLevelOf
  rw [show (([(255 : Fin 256)] : List (Fin 256)).map (fun b => (b.val : ℝ)))
      = [255] by norm_num [show ((255 : Fin 256)).val = 255 from rfl]]
  rw [show ([(255 : ℝ)].sum / (([(255 : Fin 256)] : List (Fin 256)).length : ℝ)) / 255 * 100
      = ((100 : ℤ) : ℝ) by norm_num]
  exact round_intCast 100

/-- Claim C1: for every input frame and every history state, each of the
five output scores of the produced analysis (stressLevel, confidenceLevel,
pitchVariation, speechRate, volumeConsistency) lies in the closed interval
[0, 1]. -/
theorem claim_C1_scores_unit_interval (st : AnalyzerState) (sid : String)
    (td : List (Fin 256)) (fd : List ℝ) (vol : ℝ) :
    (0 ≤ (performVoiceStressAnalysis st sid td fd vol).2.stressLevel ∧
      (performVoiceStressAnalysis st sid td fd vol).2.stressLevel ≤ 1) ∧
    (0 ≤ (performVoiceStressAnalysis st sid td fd vol).2.confidenceLevel ∧
      (performVoiceStressAnalysis st sid td fd vol).2.confidenceLevel ≤ 1) ∧
    (0 ≤ (performVoiceStressAnalysis st sid td fd vol).2.pitchVariation ∧
      (performVoiceStressAnalysis st sid td fd vol).2.pitchVariation ≤ 1) ∧
    (0 ≤ (performVoiceStressAnalysis st sid td fd vol).2.speechRate ∧
      (performVoiceStressAnalysis st sid td fd vol).2.speechRate ≤ 1) ∧
    (0 ≤ (performVoiceStressAnalysis st sid td fd vol).2.volumeConsistency ∧
      (performVoiceStressAnalysis st sid td fd vol).2.volumeConsistency ≤ 1) :=
  ⟨calculateStressLevel_bounds _ _ _ _, calculateConfidenceLevel_bounds _ _ _,
    calculatePitchVariation_bounds _, calculateSpeechRate_bounds _,
    calculateVolumeConsistency_bounds _⟩

/-- Claim C2: the emotional-state classifier is the ordered decision list
with first-match-wins semantics and strict comparisons — rule 1
(stress > 0.7 gives stressed) through rule 5, else calm — and in
particular any sample with stress > 0.7 and pitchVariation > 0.5
classifies as stressed, never anxious. -/
theorem claim_C2_classifier_decision_list (s c p r : ℝ) :
    (0.7 < s → determineEmotionalState s c p r = .stressed) ∧
    (¬ 0.7 < s → 0.7 < c ∧ s < 0.3 → determineEmotionalState s c p r = .confident) ∧
    (¬ 0.7 < s → ¬ (0.7 < c ∧ s < 0.3) → 0.6 < p ∧ r < 0.4 →
      determineEmotionalState s c p r = .uncertain) ∧
    (¬ 0.7 < s → ¬ (0.7 < c ∧ s < 0.3) → ¬ (0.6 < p ∧ r < 0.4) →
      0.5 < s ∧ 0.5 < p → determineEmotionalState s c p r = .anxious) ∧
    (¬ 0.7 < s → ¬ (0.7 < c ∧ s < 0.3) → ¬ (0.6 < p ∧ r < 0.4) →
      ¬ (0.5 < s ∧ 0.5 < p) → 0.4 < s ∧ c < 0.4 ∧ 0.4 < p →
      determineEmotionalState s c p r = .deceptive) ∧
    (¬ 0.7 < s → ¬ (0.7 < c ∧ s < 0.3) → ¬ (0.6 < p ∧ r < 0.4) →
      ¬ (0.5 < s ∧ 0.5 < p) → ¬ (0.4 < s ∧ c < 0.4 ∧ 0.4 < p) →
      determineEmotionalState s c p r = .calm) ∧
    (0.7 < s → 0.5 < p → determineEmotionalState s c p r = .stressed) := by
  unfold determineEmotionalState
  refine ⟨fun h1 => ?_, fun h1 h2 => ?_, fun h1 h2 h3 => ?_, fun h1 h2 h3 h4 => ?_,
    fun h1 h2 h3 h4 h5 => ?_, fun h1 h2 h3 h4 h5 => ?_, fun h1 _ => ?_⟩
  · rw [if_pos h1]
  · rw [if_neg h1, if_pos h2]
  · rw [if_neg h1, if_neg h2, if_pos h3]
  · rw [if_neg h1, if_neg h2, if_neg h3, if_pos h4]
  · rw [if_neg h1, if_neg h2, if_neg h3, if_neg h4, if_pos h5]
  · rw [if_neg h1, if_neg h2, if_neg h3, if_neg h4, if_neg h5]
  · rw [if_pos h1]

/-- Witness for claim C2 at the spec's own test point
(stress 0.8, confidence 0.5, pitchVariation 0.6, speechRate 0.5): rules 1
and 4 both match and the result is stressed. -/
theorem claim_C2_witness :
    determineEmotionalState 0.8 0.5 0.6 0.5 = EmotionalState.stressed :=
  (claim_C2_classifier_decision_list 0.8 0.5 0.6 0.5).2.2.2.2.2.2
    (by norm_num) (by norm_num)

/-- Claim C3: a tick whose computed level is at most 5 emits no analysis
record and leaves all three histories unchanged — a defined skip outcome,
not an error (the function is total). -/
theorem claim_C3_silence_skip (st : AnalyzerState) (sid : String)
    (da : List (Fin 256)) (fd : List ℝ) (h : audioLevelOf da ≤ 5) :
    analyzeAudio st sid da fd = (st, none) := by
  unfold analyzeAudio
  rw [if_neg (by omega : ¬ 5 < audioLevelOf da)]

/-- Witness for claim C3: the flat, silent four-sample frame (all
`timeDomainLevels` zero) is skipped and the empty state is preserved. -/
theorem claim_C3_witness :
    analyzeAudio ⟨[], [], []⟩ "session" [0, 0, 0, 0] [] = (⟨[], [], []⟩, none) :=
  claim_C3_silence_skip ⟨[], [], []⟩ "session" [0, 0, 0, 0] []
    (by rw [audioLevelOf_zeros]; norm_num)

/-- Claim C5: jitter (shimmer) is 0 for histories with fewer than 3
samples, and otherwise equals the sum of absolute consecutive differences
over the last 5 history samples followed by the current value, divided by
count − 1, then by 100 (50 for shimmer), clamped to [0, 1]; in either case
the result lies in [0, 1]. -/
theorem claim_C5_jitter_shimmer_formula (h : List ℝ) (v : ℝ) :
    (calculateJitter h v = jitterSpec h v ∧ calculateShimmer h v = shimmerSpec h v) ∧
    (0 ≤ calculateJitter h v ∧ calculateJitter h v ≤ 1) ∧
    (0 ≤ calculateShimmer h v ∧ calculateShimmer h v ≤ 1) := by
  have hnum : 0 ≤ sumAbsDiff (sliceLast h 5 ++ [v]) := sumAbsDiff_nonneg _
  have hden : (0 : ℝ) ≤ (((sliceLast h 5 ++ [v]).length - 1 : ℕ) : ℝ) := Nat.cast_nonneg _
  refine ⟨⟨?_, ?_⟩, ?_, ?_⟩
  · unfold calculateJitter jitterSpec
    split_ifs
    · rfl
    · rw [← sumAbsDiff_eq_absDiffs,
        clamp01_of_nonneg (div_nonneg (div_nonneg hnum hden) (by norm_num))]
  · unfold calculateShimmer shimmerSpec
    split_ifs
    · rfl
    · rw [← sumAbsDiff_eq_absDiffs,
        clamp01_of_nonneg (div_nonneg (div_nonneg hnum hden) (by norm_num))]
  · unfold calculateJitter
    split_ifs
    · norm_num
    · exact ⟨le_min (div_nonneg (div_nonneg hnum hden) (by norm_num)) zero_le_one,
        min_le_right _ 1⟩
  · unfold calculateShimmer
    split_ifs
    · norm_num
    · exact ⟨le_min (div_nonneg (div_nonneg hnum hden) (by norm_num)) zero_le_one,
        min_le_right _ 1⟩

/-- Claim C6: the three insufficient-data defaults are distinct and exact:
pitchVariation is 0 below 5 pitch samples, speechRate is 0.5 below 10
voice samples, volumeConsistency is 1 below 5 volume samples; all three
functions are total, so no error is raised. -/
theorem claim_C6_insufficient_data_defaults (p v w : List ℝ) :
    (p.length < 5 → calculatePitchVariation p = 0) ∧
    (v.length < 10 → calculateSpeechRate v = 0.5) ∧
    (w.length < 5 → calculateVolumeConsistency w = 1) := by
  refine ⟨fun h => ?_, fun h => ?_, fun h => ?_⟩
  · unfold calculatePitchVariation; rw [if_pos h]
  · unfold calculateSpeechRate; rw [if_pos h]
  · unfold calculateVolumeConsistency; rw [if_pos h]

/-- Witness for claim C6 at the empty histories. -/
theorem claim_C6_witness :
    calculatePitchVariation [] = 0 ∧ calculateSpeechRate [] = 0.5 ∧
      calculateVolumeConsistency [] = 1 :=
  ⟨(claim_C6_insufficient_data_defaults [] [] []).1 (by norm_num),
    (claim_C6_insufficient_data_defaults [] [] []).2.1 (by norm_num),
    (claim_C6_insufficient_data_defaults [] [] []).2.2 (by norm_num)⟩

/-- Claim C8: the emitted stressLevel equals
clamp01(0.30·highFreqEnergy + 0.25·jitter + 0.25·shimmer + 0.20 if
spectralCentroid > 0.6 else 0), where the spectral centroid is the raw
(bin-index-scale, unnormalised) power-weighted mean bin index and the 0.6
comparison is made directly on that raw value. -/
theorem claim_C8_stress_formula_raw_centroid (st : AnalyzerState) (sid : String)
    (td : List (Fin 256)) (fd : List ℝ) (vol : ℝ) :
    (performVoiceStressAnalysis st sid td fd vol).2.stressLevel
      = clamp01 (0.30 * calculateHighFrequencyEnergy fd
        + 0.25 * calculateJitter st.pitchHistory (detectFundamentalFrequency fd)
        + 0.25 * calculateShimmer st.volumeHistory vol
        + if 0.6 < calculateSpectralCentroid fd then 0.2 else 0) ∧
    calculateSpectralCentroid fd = spectralCentroidRaw fd := by
  constructor
  · show calculateStressLevel (calculateHighFrequencyEnergy fd)
      (calculateJitter st.pitchHistory (detectFundamentalFrequency fd))
      (calculateShimmer st.volumeHistory vol) (calculateSpectralCentroid fd) = _
    unfold calculateStressLevel
    rw [show calculateHighFrequencyEnergy fd * 0.3
        + calculateJitter st.pitchHistory (detectFundamentalFrequency fd) * 0.25
        + calculateShimmer st.volumeHistory vol * 0.25
        + (if 0.6 < calculateSpectralCentroid fd then (0.2 : ℝ) else 0)
      = 0.30 * calculateHighFrequencyEnergy fd
        + 0.25 * calculateJitter st.pitchHistory (detectFundamentalFrequency fd)
        + 0.25 * calculateShimmer st.volumeHistory vol
        + (if 0.6 < calculateSpectralCentroid fd then (0.2 : ℝ) else 0) by ring]
    exact min_max_clamp _
  · unfold calculateSpectralCentroid spectralCentroidRaw
    rw [sum_map_range, sum_map_range]

/-- Claim C9: each rolling history is a capacity-20 FIFO — the fold of
`pushHist` over any pushed sequence keeps its final segment of length at
most 20, and after 25 pushes from the empty history the result has length
exactly 20 and equals the last 20 pushed values in order. -/
theorem claim_C9_history_fifo (vs : List ℝ) :
    List.foldl pushHist [] vs = vs.drop (vs.length - 20) ∧
    (vs.length = 25 → (List.foldl pushHist [] vs).length = 20 ∧
      List.foldl pushHist [] vs = vs.drop 5) := by
  refine ⟨foldl_pushHist vs, fun h => ?_⟩
  rw [foldl_pushHist vs, h]
  constructor
  · rw [List.length_drop, h]
  · norm_num

/-- Witness for claim C9: pushing the 25 values 0..24. -/
theorem claim_C9_witness :
    (List.foldl pushHist []
        [0, 1, 2, 3, 4, 5, 6, 7, 8, 9, 10, 11, 12, 13, 14, 15, 16, 17, 18, 19,
          20, 21, 22, 23, 24]).length = 20 ∧
      List.foldl pushHist []
        [0, 1, 2, 3, 4, 5, 6, 7, 8, 9, 10, 11, 12, 13, 14, 15, 16, 17, 18, 19,
          20, 21, 22, 23, 24]
      = List.drop 5
        [0, 1, 2, 3, 4, 5, 6, 7, 8, 9, 10, 11, 12, 13, 14, 15, 16, 17, 18, 19,
          20, 21, 22, 23, 24] :=
  (claim_C9_history_fifo _).2 (by rfl)

/-- Pitch variation of a constant five-sample history is 0. -/
theorem calcPV_const_five : calculatePitchVariation [100, 100, 100, 100, 100] = 0 := by
  unfold calculatePitchVariation
  rw [if_neg (by norm_num)]
  norm_num [List.sum_cons, List.sum_nil, List.map_cons, List.map_nil,
    List.length_cons, List.length_nil, Real.sqrt_zero]

/-- Pitch variation is nonzero once the constant history is followed by a
zero pitch. -/
theorem calcPV_push_zero_ne :
    calculatePitchVariation [100, 100, 100, 100, 100, 0] ≠ 0 := by
  unfold calculatePitchVariation
  rw [if_neg (by norm_num)]
  simp only []
  refine (lt_min ?_ one_pos).ne'
  apply div_pos ?_ (by norm_num)
  apply Real.sqrt_pos.mpr
  norm_num [List.sum_cons, List.sum_nil, List.map_cons, List.map_nil,
    List.length_cons, List.length_nil]

/-- Counterexample to claim C4: on a tick that produces an analysis (state
with pitch history of five samples of 100, a loud one-byte frame and a
single-bin spectrum), the emitted pitchVariation differs from the pitch
variation of the history that includes the current tick's fundamental
frequency: React's deferred state update means the score is computed from
the pre-push history. -/
theorem claim_C4_counterexample :
    ¬ ((analyzeAudio ⟨[], [100, 100, 100, 100, 100], []⟩ "s" [(255 : Fin 256)]
          [(-10 : ℝ)]).2.map VoiceAnalysis.pitchVariation
      = some (calculatePitchVariation
          (pushHist [100, 100, 100, 100, 100] (detectFundamentalFrequency [(-10 : ℝ)])))) := by
  have hff : detectFundamentalFrequency [(-10 : ℝ)] = 0 :=
    detectFF_of_empty_range _ rfl
  have hpush : pushHist [(100 : ℝ), 100, 100, 100, 100] 0
      = [100, 100, 100, 100, 100, 0] := rfl
  unfold analyzeAudio
  rw [if_pos (by rw [audioLevelOf_255]; norm_num)]
  rw [hff, hpush]
  simp only [Option.map_some', Option.some.injEq]
  show ¬ (calculatePitchVariation [100, 100, 100, 100, 100]
    = calculatePitchVariation [100, 100, 100, 100, 100, 0])
  rw [calcPV_const_five]
  exact fun hEq => calcPV_push_zero_ne hEq.symm

/-- Claim C4 amended: at every tick the emitted pitchVariation is computed
over the pitch history as it stood before the tick — the current tick's
fundamental frequency is not yet included; it is pushed into the next
state's pitch history, becoming visible only from the next tick on. -/
theorem claim_C4_amended (st : AnalyzerState) (sid : String) (td : List (Fin 256))
    (fd : List ℝ) (vol : ℝ) :
    (performVoiceStressAnalysis st sid td fd vol).2.pitchVariation
        = calculatePitchVariation st.pitchHistory ∧
      (performVoiceStressAnalysis st sid td fd vol).1.pitchHistory
        = pushHist st.pitchHistory (detectFundamentalFrequency fd) :=
  ⟨rfl, rfl⟩

/-- A 74-bin magnitude spectrum whose only loud bin is index 1 (0 dB among
-100 dB bins).  Bin 1 maps to 22050/74, roughly 298 Hz, inside [80, 300];
the code's scanned index window for 74 bins is [0, 1), which misses it. -/
noncomputable def exSpectrum : List ℝ :=
  (-100 : ℝ) :: (0 : ℝ) :: List.replicate 72 (-100 : ℝ)

/-- Counterexample to claim C7: on `exSpectrum` the code returns the
frequency 0 (it scans only bin 0, whose mapped frequency is below 80 Hz),
while the maximum-magnitude bin among exactly the bins whose mapped
frequency lies in [80, 300] is bin 1, giving 22050/74. -/
theorem claim_C7_counterexample :
    detectFundamentalFrequency exSpectrum ≠ detectFundamentalFrequencySpec exSpectrum := by
  have hlen : exSpectrum.length = 74 := rfl
  have hb : bandIdxs 74 = [1] := by decide
  unfold detectFundamentalFrequency detectFundamentalFrequencySpec
  rw [hlen, show ffSearchRange 74 = [0] from rfl, hb]
  rw [List.foldl_cons, List.foldl_nil, List.foldl_cons, List.foldl_nil]
  rw [show ffStep exSpectrum (0, none) 0 = (0, some (exSpectrum.getD 0 0)) from rfl,
    show ffStep exSpectrum (0, none) 1 = (1, some (exSpectrum.getD 1 0)) from rfl]
  norm_num

/-- Claim C7 amended: for every spectrum, the fundamental frequency is the
mapped frequency `i * 22050 / binCount` of the maximum-magnitude bin with
ties to the lowest index, where `i` ranges over the code's integer index
window `[floor(80·binCount/22050), min(floor(300·binCount/22050),
binCount))` — an approximation of the 80-300 Hz band that can include a
bin mapping below 80 Hz and exclude one mapping to at most 300 Hz; when
that window is empty the result is 0. -/
theorem claim_C7_amended_first_max (d : List ℝ) :
    (ffSearchRange d.length = [] → detectFundamentalFrequency d = 0) ∧
    (ffSearchRange d.length ≠ [] →
      ∃ i, i ∈ ffSearchRange d.length ∧
        detectFundamentalFrequency d = (i : ℝ) * 22050 / (d.length : ℝ) ∧
        (∀ j ∈ ffSearchRange d.length, d.getD j 0 ≤ d.getD i 0) ∧
        ∀ j ∈ ffSearchRange d.length, j < i → d.getD j 0 < d.getD i 0) := by
  refine ⟨detectFF_of_empty_range d, fun hne => ?_⟩
  cases hr : ffSearchRange d.length with
  | nil => exact absurd hr hne
  | cons a t =>
    have hpw : List.Pairwise (· < ·) (a :: t) := by
      rw [← hr]; unfold ffSearchRange; exact List.pairwise_lt_range' _ _
    have hpt : List.Pairwise (· < ·) t := (List.pairwise_cons.mp hpw).2
    have hat : ∀ j ∈ t, a < j := (List.pairwise_cons.mp hpw).1
    have hstep : ffStep d (0, none) a = (a, some (d.getD a 0)) := rfl
    unfold detectFundamentalFrequency
    rw [hr, List.foldl_cons, hstep]
    rcases ffScan_first_max d t hpt a (d.getD a 0) with
      ⟨heq, hle⟩ | ⟨i, hmem, heq, hlt, hmax, hfirst⟩
    · refine ⟨a, List.mem_cons_self a t, ?_, ?_, ?_⟩
      · rw [heq]
      · intro j hj
        rcases List.mem_cons.mp hj with rfl | hj
        · exact le_refl _
        · exact hle j hj
      · intro j hj hja
        rcases List.mem_cons.mp hj with rfl | hj
        · exact absurd hja (lt_irrefl _)
        · exact absurd hja (not_lt.mpr (hat j hj).le)
    · refine ⟨i, List.mem_cons_of_mem a hmem, ?_, ?_, ?_⟩
      · rw [heq]
      · intro j hj
        rcases List.mem_cons.mp hj with rfl | hj
        · exact hlt.le
        · exact hmax j hj
      · intro j hj hji
        rcases List.mem_cons.mp hj with rfl | hj
        · exact hlt
        · exact hfirst j hj hji

/-- Witness for the amended claim C7 at `exSpectrum`, whose scanned index
window is the single bin 0. -/
theorem claim_C7_witness :
    ∃ i, i ∈ ffSearchRange exSpectrum.length ∧
      detectFundamentalFrequency exSpectrum
        = (i : ℝ) * 22050 / (exSpectrum.length : ℝ) ∧
      (∀ j ∈ ffSearchRange exSpectrum.length,
        exSpectrum.getD j 0 ≤ exSpectrum.getD i 0) ∧
      ∀ j ∈ ffSearchRange exSpectrum.length, j < i →
        exSpectrum.getD j 0 < exSpectrum.getD i 0 :=
  (claim_C7_amended_first_max exSpectrum).2
    (by rw [show ffSearchRange exSpectrum.length = [0] from rfl]
        exact List.cons_ne_nil 0 [])

/-- Membership in a pushed history comes from the old history or is the
pushed value. -/
theorem mem_pushHist {x v : ℝ} {l : List ℝ} (hx : x ∈ pushHist l v) :
    x ∈ l ∨ x = v := by
  unfold pushHist sliceLast at hx
  rcases List.mem_append.mp hx with h | h
  · exact Or.inl (List.drop_subset _ l h)
  · exact Or.inr (List.mem_singleton.mp h)

/-- Claim C10: in every reachable state of the pipeline, every element of
the voice and volume histories lies in the half-open interval (5, 100]:
values are pushed only on ticks whose level exceeds the silence threshold
5, and the level itself never exceeds 100; speechRate therefore counts its
over-10 samples among samples that all lie in (5, 100]. -/
theorem claim_C10_history_level_invariant (st : AnalyzerState) (hst : Reachable st) :
    ∀ x : ℝ, x ∈ st.voiceHistory ∨ x ∈ st.volumeHistory → 5 < x ∧ x ≤ 100 := by
  induction hst with
  | init => intro x hx; rcases hx with hx | hx <;> simp at hx
  | step sid da fd hr ih =>
    intro x hx
    unfold analyzeAudio at hx
    by_cases h5 : 5 < audioLevelOf da
    · rw [if_pos h5] at hx
      have hx' : x ∈ pushHist _ ((audioLevelOf da : ℤ) : ℝ) ∨
          x ∈ pushHist _ ((audioLevelOf da : ℤ) : ℝ) := hx
      have hlevel : (5 : ℝ) < ((audioLevelOf da : ℤ) : ℝ) ∧
          ((audioLevelOf da : ℤ) : ℝ) ≤ 100 := by
        constructor
        · exact_mod_cast h5
        · exact_mod_cast audioLevelOf_le_100 da
      rcases hx' with hm | hm
      · rcases mem_pushHist hm with h | rfl
        · exact ih x (Or.inl h)
        · exact hlevel
      · rcases mem_pushHist hm with h | rfl
        · exact ih x (Or.inr h)
        · exact hlevel
    · rw [if_neg h5] at hx
      exact ih x hx

/-- Witness for claim C10: after one loud tick from the empty state the
pushed level 100 lies in (5, 100]. -/
theorem claim_C10_witness :
    (5 : ℝ) < ((100 : ℤ) : ℝ) ∧ ((100 : ℤ) : ℝ) ≤ 100 :=
  claim_C10_history_level_invariant _
    (Reachable.step "s" [(255 : Fin 256)] [] Reachable.init) ((100 : ℤ) : ℝ)
    (Or.inl (by
      unfold analyzeAudio
      rw [if_pos (by rw [audioLevelOf_255]; norm_num)]
      rw [audioLevelOf_255]
      show ((100 : ℤ) : ℝ) ∈ pushHist [] ((100 : ℤ) : ℝ)
      exact List.mem_singleton.mpr rfl))
